import Mathlib

/-!
Verification of the status time-accounting core of `statuses.py`.

The embedding is shallow:
* Instants (`datetime`) become `Int` seconds since an arbitrary epoch;
  `timedelta` values become `Int` seconds; `timedelta(minutes=5)` is `5 * 60`.
* Python `dict`s become insertion-ordered association lists (`Dict`);
  assignment updates an existing key in place or appends a new one, exactly
  as Python dicts behave.
* `datetime.now(pytz.utc)` becomes an explicit `now : Int` parameter of
  `get_status_metrics`.
* `get_status_events` performs network and HTML/JSON parsing; its inputs are
  modelled by the structure the code actually branches on (script tag found
  or not, JSON parse outcome, presence of the nested payload path), and its
  Python exceptions (`json.JSONDecodeError` from `json.loads`, `KeyError`
  from the nested indexing) become `Except.error`.
* `numpy.average` / `numpy.median` / `numpy.percentile` (default linear
  interpolation) / `numpy.round` (round half to even) are given exact
  rational models; durations entering them are whole seconds, so rationals
  are a faithful stand-in for the floats numpy uses.
-/

namespace IssueMetrics

/-- Insertion-ordered string-keyed dictionary, mirroring a Python `dict`. -/
abbrev Dict (α : Type) : Type := List (String × α)

/-- Lookup, `d[k]` / `d.get(k)`. -/
def Dict.find? {α : Type} : Dict α → String → Option α
  | [], _ => none
  | (k, v) :: rest, key => if k = key then some v else Dict.find? rest key

/-- Assignment `d[k] = v`: update in place if the key exists, else append
(Python dicts preserve insertion order and append new keys). -/
def Dict.set {α : Type} : Dict α → String → α → Dict α
  | [], key, v => [(key, v)]
  | (k, w) :: rest, key, v =>
      if k = key then (k, v) :: rest else (k, w) :: Dict.set rest key v

/-- Key membership, `k in d`. -/
def Dict.contains {α : Type} (d : Dict α) (key : String) : Bool :=
  (Dict.find? d key).isSome

/-- The two event kinds produced by the extractor: `"statused"` (ENTERED)
and `"unstatused"` (LEFT). -/
inductive EventKind
  | statused
  | unstatused

/-- One status event as built in `get_status_events`:
`{"createdAt": ..., "event": ..., "statusName": ...}`. -/
structure StatusEvent where
  createdAt : Int
  event : EventKind
  statusName : String

/-- The fields of a `github3` issue that `get_status_metrics` reads:
`issue.created_at`, `issue.closed_at` (may be `None`) and `issue.state`. -/
structure Issue where
  created_at : Int
  closed_at : Option Int
  state : String

/-- The mutable state of the event loop in `get_status_metrics`:
`status_metrics`, `status_last_event_type`, `statused`, `unstatused`. -/
structure AccState where
  status_metrics : Dict (Option Int)
  status_last_event_type : Dict String
  statused : Dict Bool
  unstatused : Dict Bool

/-- The skip test of lines 76-79: an event is skipped when `issue.closed_at`
is not `None` and the event is later than `closed_at + timedelta(minutes=5)`. -/
def skipEvent (issue : Issue) (e : StatusEvent) : Bool :=
  match issue.closed_at with
  | some closedAt => e.createdAt > closedAt + 5 * 60
  | none => false

/-- One iteration of the event loop (lines 74-98).  A `"statused"` event
records the status in `statused`, and, when the status is tracked,
initialises its metric to zero if it was `None` and subtracts
`event["createdAt"] - issue.created_at`; `"unstatused"` symmetrically
records in `unstatused` and adds the difference.  The metric read happens
before the write, so the flattened record literals below are the loop body
verbatim. -/
def processEvent (issue : Issue) (statuses : List String)
    (st : AccState) (e : StatusEvent) : AccState :=
  if skipEvent issue e then st
  else
    match e.event with
    | EventKind.statused =>
        if e.statusName ∈ statuses then
          { status_metrics :=
              Dict.set st.status_metrics e.statusName
                (some ((((Dict.find? st.status_metrics e.statusName).getD none).getD 0)
                  - (e.createdAt - issue.created_at))),
            status_last_event_type :=
              Dict.set st.status_last_event_type e.statusName "statused",
            statused := Dict.set st.statused e.statusName true,
            unstatused := st.unstatused }
        else { st with statused := Dict.set st.statused e.statusName true }
    | EventKind.unstatused =>
        if e.statusName ∈ statuses then
          { status_metrics :=
              Dict.set st.status_metrics e.statusName
                (some ((((Dict.find? st.status_metrics e.statusName).getD none).getD 0)
                  + (e.createdAt - issue.created_at))),
            status_last_event_type :=
              Dict.set st.status_last_event_type e.statusName "unstatused",
            statused := st.statused,
            unstatused := Dict.set st.unstatused e.statusName true }
        else { st with unstatused := Dict.set st.unstatused e.statusName true }

/-- Lines 64-65: every tracked status is initialised to `None`. -/
def initMetrics (statuses : List String) : Dict (Option Int) :=
  statuses.foldl (fun m s => Dict.set m s none) []

/-- The loop state just before the event loop: initialised metrics, the
three tracking dictionaries empty. -/
def initState (statuses : List String) : AccState :=
  { status_metrics := initMetrics statuses,
    status_last_event_type := [],
    statused := [],
    unstatused := [] }

/-- The state after the whole event loop has run. -/
def accumState (issue : Issue) (statuses : List String)
    (status_events : List StatusEvent) : AccState :=
  status_events.foldl (processEvent issue statuses) (initState statuses)

/-- One iteration of the finalisation loop (lines 100-115) for one tracked
status.  When the status was ever `"statused"`: a closed issue adds
`closed_at - created_at` unconditionally; an open issue skips the status
when its last event was `"unstatused"` and otherwise adds
`now - created_at`.  In Python `status_metrics[status] += ...` would raise
on a `None` value and `datetime.fromisoformat(issue.closed_at)` would raise
on `None`; both are unreachable here (the `statused` mark guarantees a
non-`None` metric, and closed issues carry a close time), so the `getD`
defaults only make the function total. -/
def finalizeStatus (issue : Issue) (now : Int) (st : AccState)
    (m : Dict (Option Int)) (status : String) : Dict (Option Int) :=
  if Dict.contains st.statused status then
    if issue.state = "closed" then
      Dict.set m status
        (some (((Dict.find? m status).getD none).getD 0
          + (issue.closed_at.getD 0 - issue.created_at)))
    else
      if (Dict.find? st.status_last_event_type status).getD "" = "unstatused" then m
      else
        Dict.set m status
          (some (((Dict.find? m status).getD none).getD 0
            + (now - issue.created_at)))
  else m

/-- The finalisation loop over all tracked statuses. -/
def finalizeMetrics (issue : Issue) (statuses : List String) (now : Int)
    (st : AccState) : Dict (Option Int) :=
  statuses.foldl (finalizeStatus issue now st) st.status_metrics

/-- `get_status_metrics` (lines 47-116), with the event list (the value of
`get_status_events(issue, statuses)`) and the evaluation instant `now`
passed explicitly.  Returns the per-status duration dictionary. -/
def get_status_metrics (issue : Issue) (statuses : List String)
    (status_events : List StatusEvent) (now : Int) : Dict (Option Int) :=
  if status_events.isEmpty then initMetrics statuses
  else finalizeMetrics issue statuses now (accumState issue statuses status_events)

/-- One timeline node of the embedded JSON (lines 37-43): `node["status"]`
is `some s` when the key `"status"` is present, and `node["previousStatus"]`
and `node["createdAt"]` are read only for such nodes (`createdAt` modelled
as the instant the `strptime` call yields). -/
structure TimelineNode where
  status : Option String
  previousStatus : String
  createdAt : Int

/-- The content of the `react-app.embeddedData` script tag, classified by
the branches `get_status_events` takes on it: `json.loads` raises on
malformed text; a falsy parse (`{}`-like) fails the `if json_data:` test;
indexing a truthy parse that lacks the nested
`payload / preloadedQueries / 0 / result / data / repository / issue /
frontTimelineItems / edges` path raises `KeyError`; otherwise the edge
nodes are available. -/
inductive ScriptPayload
  | malformed
  | falsy
  | missingPath
  | withEdges (edges : List TimelineNode)

/-- A raw source document as `get_status_events` sees it after the
`BeautifulSoup` search: either the matching script tag was found or not. -/
structure RawDoc where
  script_tag : Option ScriptPayload

/-- The events one node contributes (lines 39-43): inside `if "status" in
node`, append a `"statused"` event when the new status is tracked, then a
`"unstatused"` event when `previousStatus` is non-empty and tracked. -/
def nodeEvents (statuses : List String) (node : TimelineNode) : List StatusEvent :=
  match node.status with
  | none => []
  | some s =>
      (if s ∈ statuses then [⟨node.createdAt, EventKind.statused, s⟩] else []) ++
      (if node.previousStatus ≠ "" ∧ node.previousStatus ∈ statuses then
        [⟨node.createdAt, EventKind.unstatused, node.previousStatus⟩] else [])

/-- `get_status_events` (lines 15-44) on an already-fetched document.
`Except.error` marks the unguarded Python exceptions. -/
def get_status_events (doc : RawDoc) (statuses : List String) :
    Except String (List StatusEvent) :=
  match doc.script_tag with
  | none => Except.ok []
  | some ScriptPayload.malformed => Except.error "json.decoder.JSONDecodeError"
  | some ScriptPayload.falsy => Except.ok []
  | some ScriptPayload.missingPath => Except.error "KeyError"
  | some (ScriptPayload.withEdges edges) =>
      Except.ok (edges.foldl (fun acc node => acc ++ nodeEvents statuses node) [])

/-- Whether a call returned normally (did not raise). -/
def exceptIsOk {ε α : Type} : Except ε α → Bool
  | Except.ok _ => true
  | Except.error _ => false

/-- Insert into a sorted list, the helper of the sorting model. -/
def insertSorted (x : ℚ) : List ℚ → List ℚ
  | [] => [x]
  | y :: ys => if x ≤ y then x :: y :: ys else y :: insertSorted x ys

/-- Ascending sort, as numpy's statistics use internally. -/
def sortQ (l : List ℚ) : List ℚ := l.foldr insertSorted []

/-- `numpy.average`: the arithmetic mean. -/
def npAverage (l : List ℚ) : ℚ := l.sum / (l.length : ℚ)

/-- `numpy.median`: middle element of the sorted list, or the mean of the
two middle elements. -/
def npMedian (l : List ℚ) : ℚ :=
  let s := sortQ l
  if s.length % 2 = 1 then s.getD (s.length / 2) 0
  else (s.getD (s.length / 2 - 1) 0 + s.getD (s.length / 2) 0) / 2

/-- `numpy.percentile` with the default linear interpolation between
closest ranks: the virtual rank is `(n - 1) * q / 100` and the value is
interpolated between the two neighbouring order statistics. -/
def npPercentile (l : List ℚ) (q : ℚ) : ℚ :=
  let s := sortQ l
  let h : ℚ := ((s.length : ℚ) - 1) * q / 100
  let lo := s.getD (⌊h⌋).toNat 0
  let hi := s.getD ((⌊h⌋).toNat + 1) lo
  lo + (h - (⌊h⌋ : ℚ)) * (hi - lo)

/-- `numpy.round` on a scalar: round half to even. -/
def npRound (x : ℚ) : Int :=
  if x - (⌊x⌋ : ℚ) < 1/2 then ⌊x⌋
  else if (1:ℚ)/2 < x - (⌊x⌋ : ℚ) then ⌊x⌋ + 1
  else if ⌊x⌋ % 2 = 0 then ⌊x⌋ else ⌊x⌋ + 1

/-- The one field of the `IssueWithMetrics` container that
`get_stats_time_in_statuses` reads; `none` models an unset (`None`)
attribute, and an empty dictionary is equally falsy for
`if issue.status_metrics:`. -/
structure IssueWithMetrics where
  status_metrics : Option (Dict (Option Int))

/-- The body of the sample-collection loop (lines 127-135): skip `None`
durations, start a fresh sample list for a new status, append otherwise.
`total_seconds()` turns the stored whole seconds into the number numpy
sees. -/
def appendSample (acc : Dict (List ℚ)) (kv : String × Option Int) : Dict (List ℚ) :=
  match kv.2 with
  | none => acc
  | some v =>
      match Dict.find? acc kv.1 with
      | none => Dict.set acc kv.1 [(v : ℚ)]
      | some l => Dict.set acc kv.1 (l ++ [(v : ℚ)])

/-- Lines 124-135: collect, per status, the non-`None` durations of every
issue whose `status_metrics` is truthy. -/
def collectSamples (issues_with_metrics : List IssueWithMetrics) : Dict (List ℚ) :=
  issues_with_metrics.foldl
    (fun acc issue =>
      match issue.status_metrics with
      | none => acc
      | some d => if d.isEmpty then acc else d.foldl appendSample acc)
    []

/-- The three statistics dictionaries built side by side. -/
abbrev StatsTriple : Type :=
  Dict (Option Int) × Dict (Option Int) × Dict (Option Int)

/-- One iteration of the statistics loop (lines 140-149): for a status with
samples, store the rounded average, median and 90th percentile. -/
def statsStep (acc : StatsTriple) (kv : String × List ℚ) : StatsTriple :=
  (Dict.set acc.1 kv.1 (some (npRound (npAverage kv.2))),
   Dict.set acc.2.1 kv.1 (some (npRound (npMedian kv.2))),
   Dict.set acc.2.2 kv.1 (some (npRound (npPercentile kv.2 90))))

/-- One iteration of the fill loop (lines 151-155): a configured status
missing from the average dictionary gets `None` in all three. -/
def fillStep (acc : StatsTriple) (status : String) : StatsTriple :=
  if Dict.contains acc.1 status then acc
  else (Dict.set acc.1 status none, Dict.set acc.2.1 status none,
        Dict.set acc.2.2 status none)

/-- The returned `stats` dictionary; its Python keys are `"avg"`, `"med"`
and `"90p"` (the last held by the field `ninety`). -/
structure AggregateStats where
  avg : Dict (Option Int)
  med : Dict (Option Int)
  ninety : Dict (Option Int)

/-- `get_stats_time_in_statuses` (lines 119-162); the `statuses` dictionary
parameter only contributes its keys, passed here as the key list. -/
def get_stats_time_in_statuses (issues_with_metrics : List IssueWithMetrics)
    (statuses : List String) : AggregateStats :=
  let samples := collectSamples issues_with_metrics
  let t1 := samples.foldl statsStep (([], [], []) : StatsTriple)
  let t2 := statuses.foldl fillStep t1
  { avg := t2.1, med := t2.2.1, ninety := t2.2.2 }

/-- The three statistics dictionaries have the same keys. -/
def KeysAgree (t : StatsTriple) : Prop :=
  ∀ j, Dict.contains t.2.1 j = Dict.contains t.1 j ∧
       Dict.contains t.2.2 j = Dict.contains t.1 j

/-- Pointwise comparison of two metric dictionaries: every key holds either
the very same value or non-`None` durations that have grown. -/
def MetricsLe (m₁ m₂ : Dict (Option Int)) : Prop :=
  ∀ j, Dict.find? m₁ j = Dict.find? m₂ j ∨
    ∃ a b, Dict.find? m₁ j = some (some a) ∧ Dict.find? m₂ j = some (some b) ∧ a ≤ b

/-- The per-item input of the aggregation example: three items carrying 10,
20 and 30 seconds in status `"X"`. -/
def sampleIssuesC2 : List IssueWithMetrics :=
  [⟨some [("X", some 10)]⟩, ⟨some [("X", some 20)]⟩, ⟨some [("X", some 30)]⟩]

/-! ## Dictionary lemmas -/

theorem Dict.find?_set_self {α : Type} (d : Dict α) (k : String) (v : α) :
    Dict.find? (Dict.set d k v) k = some v := by
  induction d with
  | nil => simp [Dict.set, Dict.find?]
  | cons hd tl ih =>
      obtain ⟨k', v'⟩ := hd
      by_cases h : k' = k
      · subst h; simp [Dict.set, Dict.find?]
      · simp [Dict.set, Dict.find?, h, ih]

theorem Dict.find?_set_ne {α : Type} {k j : String} (h : k ≠ j)
    (d : Dict α) (v : α) :
    Dict.find? (Dict.set d k v) j = Dict.find? d j := by
  induction d with
  | nil => simp [Dict.set, Dict.find?, h]
  | cons hd tl ih =>
      obtain ⟨k', v'⟩ := hd
      by_cases hk : k' = k
      · subst hk
        simp [Dict.set, Dict.find?, h]
      · simp [Dict.set, Dict.find?, hk, ih]

theorem Dict.contains_set {α : Type} (d : Dict α) (k : String) (v : α)
    (j : String) :
    Dict.contains (Dict.set d k v) j = (decide (j = k) || Dict.contains d j) := by
  by_cases h : j = k
  · subst h
    simp [Dict.contains, Dict.find?_set_self]
  · have h' : k ≠ j := fun hk => h hk.symm
    simp [Dict.contains, Dict.find?_set_ne h', h]

theorem Dict.contains_set_mono {α : Type} {d : Dict α} {j : String}
    (k : String) (v : α) (h : Dict.contains d j = true) :
    Dict.contains (Dict.set d k v) j = true := by
  simp [Dict.contains_set, h]

/-! ## Initialisation lemmas -/

theorem find?_initFold (S : String) (l : List String) :
    ∀ d : Dict (Option Int),
      Dict.find? (l.foldl (fun m s => Dict.set m s none) d) S
        = if S ∈ l then some none else Dict.find? d S := by
  induction l with
  | nil => intro d; simp
  | cons a tl ih =>
      intro d
      simp only [List.foldl_cons, ih]
      by_cases hS : S ∈ tl
      · simp [hS]
      · by_cases ha : S = a
        · subst ha
          simp [hS, Dict.find?_set_self]
        · have h' : a ≠ S := fun h => ha h.symm
          simp [hS, ha, Dict.find?_set_ne h']

theorem find?_initMetrics {S : String} {statuses : List String}
    (hS : S ∈ statuses) :
    Dict.find? (initMetrics statuses) S = some none := by
  unfold initMetrics
  rw [find?_initFold]
  simp [hS]

theorem contains_initMetrics {S : String} {statuses : List String}
    (hS : S ∈ statuses) :
    Dict.contains (initMetrics statuses) S = true := by
  simp [Dict.contains, find?_initMetrics hS]

/-! ## Event-loop lemmas -/

theorem processEvent_frame (issue : Issue) (statuses : List String)
    (st : AccState) (e : StatusEvent) (S : String)
    (h : skipEvent issue e = true ∨ e.statusName ≠ S) :
    Dict.find? (processEvent issue statuses st e).status_metrics S
        = Dict.find? st.status_metrics S ∧
      Dict.find? (processEvent issue statuses st e).statused S
        = Dict.find? st.statused S := by
  unfold processEvent
  rcases h with h | h
  · simp [h]
  · split
    · exact ⟨rfl, rfl⟩
    · split <;> split <;> simp [Dict.find?_set_ne h]

theorem accumFold_frame (issue : Issue) (statuses : List String) (S : String)
    (events : List StatusEvent) :
    ∀ st : AccState,
      (∀ e ∈ events, skipEvent issue e = true ∨ e.statusName ≠ S) →
      Dict.find? (events.foldl (processEvent issue statuses) st).status_metrics S
          = Dict.find? st.status_metrics S ∧
        Dict.find? (events.foldl (processEvent issue statuses) st).statused S
          = Dict.find? st.statused S := by
  induction events with
  | nil => intro st _; exact ⟨rfl, rfl⟩
  | cons e tl ih =>
      intro st h
      simp only [List.foldl_cons]
      have hpe := processEvent_frame issue statuses st e S (h e (by simp))
      have htl := ih (processEvent issue statuses st e)
        (fun x hx => h x (by simp [hx]))
      exact ⟨htl.1.trans hpe.1, htl.2.trans hpe.2⟩

theorem processEvent_metrics_contains (issue : Issue) (statuses : List String)
    (st : AccState) (e : StatusEvent) (S : String)
    (h : Dict.contains st.status_metrics S = true) :
    Dict.contains (processEvent issue statuses st e).status_metrics S = true := by
  unfold processEvent
  split
  · exact h
  · split <;> split <;> simp [Dict.contains_set, h]

theorem accumFold_metrics_contains (issue : Issue) (statuses : List String)
    (S : String) (events : List StatusEvent) :
    ∀ st : AccState,
      Dict.contains st.status_metrics S = true →
      Dict.contains
        (events.foldl (processEvent issue statuses) st).status_metrics S = true := by
  induction events with
  | nil => intro st h; exact h
  | cons e tl ih =>
      intro st h
      simp only [List.foldl_cons]
      exact ih _ (processEvent_metrics_contains issue statuses st e S h)

/-! ## Finalisation lemmas -/

theorem finalizeStatus_find?_ne (issue : Issue) (now : Int) (st : AccState)
    (m : Dict (Option Int)) {t S : String} (h : t ≠ S) :
    Dict.find? (finalizeStatus issue now st m t) S = Dict.find? m S := by
  unfold finalizeStatus
  split
  · split
    · simp [Dict.find?_set_ne h]
    · split
      · rfl
      · simp [Dict.find?_set_ne h]
  · rfl

theorem finalizeStatus_not_statused (issue : Issue) (now : Int)
    (st : AccState) (m : Dict (Option Int)) (t : String)
    (h : Dict.contains st.statused t = false) :
    finalizeStatus issue now st m t = m := by
  unfold finalizeStatus
  simp [h]

theorem finalizeFold_frame (issue : Issue) (now : Int) (st : AccState)
    (S : String) (hS : Dict.contains st.statused S = false)
    (l : List String) :
    ∀ m : Dict (Option Int),
      Dict.find? (l.foldl (finalizeStatus issue now st) m) S
        = Dict.find? m S := by
  induction l with
  | nil => intro m; rfl
  | cons t tl ih =>
      intro m
      simp only [List.foldl_cons]
      rw [ih]
      by_cases h : t = S
      · rw [h, finalizeStatus_not_statused issue now st m S hS]
      · exact finalizeStatus_find?_ne issue now st m h

theorem finalizeStatus_contains_mono (issue : Issue) (now : Int)
    (st : AccState) (m : Dict (Option Int)) (t S : String)
    (h : Dict.contains m S = true) :
    Dict.contains (finalizeStatus issue now st m t) S = true := by
  unfold finalizeStatus
  split
  · split
    · simp [Dict.contains_set, h]
    · split
      · exact h
      · simp [Dict.contains_set, h]
  · exact h

theorem finalizeFold_contains_mono (issue : Issue) (now : Int) (st : AccState)
    (S : String) (l : List String) :
    ∀ m : Dict (Option Int),
      Dict.contains m S = true →
      Dict.contains (l.foldl (finalizeStatus issue now st) m) S = true := by
  induction l with
  | nil => intro m h; exact h
  | cons t tl ih =>
      intro m h
      simp only [List.foldl_cons]
      exact ih _ (finalizeStatus_contains_mono issue now st m t S h)

theorem get_status_metrics_contains (issue : Issue) (statuses : List String)
    (events : List StatusEvent) (now : Int) {S : String} (hS : S ∈ statuses) :
    Dict.contains (get_status_metrics issue statuses events now) S = true := by
  unfold get_status_metrics
  split
  · exact contains_initMetrics hS
  · unfold finalizeMetrics
    refine finalizeFold_contains_mono issue now _ S statuses _ ?_
    unfold accumState
    exact accumFold_metrics_contains issue statuses S events _
      (contains_initMetrics hS)

/-! ## Time-dependence lemmas -/

theorem finalizeStatus_closed (issue : Issue) (st : AccState)
    (hclosed : issue.state = "closed") (now₁ now₂ : Int)
    (m : Dict (Option Int)) (t : String) :
    finalizeStatus issue now₁ st m t = finalizeStatus issue now₂ st m t := by
  unfold finalizeStatus
  simp [hclosed]

theorem finalizeFold_closed (issue : Issue) (st : AccState)
    (hclosed : issue.state = "closed") (now₁ now₂ : Int) (l : List String) :
    ∀ m : Dict (Option Int),
      l.foldl (finalizeStatus issue now₁ st) m
        = l.foldl (finalizeStatus issue now₂ st) m := by
  induction l with
  | nil => intro m; rfl
  | cons t tl ih =>
      intro m
      simp only [List.foldl_cons]
      rw [finalizeStatus_closed issue st hclosed now₁ now₂ m t, ih]

theorem MetricsLe.refl (m : Dict (Option Int)) : MetricsLe m m :=
  fun _ => Or.inl rfl

theorem finalizeStatus_mono (issue : Issue) (st : AccState)
    (hopen : ¬issue.state = "closed") {now₁ now₂ : Int} (h12 : now₁ ≤ now₂)
    {m₁ m₂ : Dict (Option Int)} (hrel : MetricsLe m₁ m₂) (t : String) :
    MetricsLe (finalizeStatus issue now₁ st m₁ t)
      (finalizeStatus issue now₂ st m₂ t) := by
  unfold finalizeStatus
  simp only [hopen, if_false]
  split
  · split
    · exact hrel
    · intro j
      by_cases hj : j = t
      · subst hj
        rcases hrel j with h | ⟨a, b, ha, hb, hab⟩
        · refine Or.inr ?_
          rw [h]
          exact ⟨_, _, Dict.find?_set_self _ _ _, Dict.find?_set_self _ _ _,
            by omega⟩
        · refine Or.inr ?_
          rw [ha, hb]
          simp only [Option.getD_some]
          exact ⟨_, _, Dict.find?_set_self _ _ _, Dict.find?_set_self _ _ _,
            by omega⟩
      · have ht : t ≠ j := fun h => hj h.symm
        rw [Dict.find?_set_ne ht, Dict.find?_set_ne ht]
        exact hrel j
  · exact hrel

theorem finalizeFold_mono (issue : Issue) (st : AccState)
    (hopen : ¬issue.state = "closed") {now₁ now₂ : Int} (h12 : now₁ ≤ now₂)
    (l : List String) :
    ∀ {m₁ m₂ : Dict (Option Int)}, MetricsLe m₁ m₂ →
      MetricsLe (l.foldl (finalizeStatus issue now₁ st) m₁)
        (l.foldl (finalizeStatus issue now₂ st) m₂) := by
  induction l with
  | nil => intro m₁ m₂ h; exact h
  | cons t tl ih =>
      intro m₁ m₂ h
      simp only [List.foldl_cons]
      exact ih (finalizeStatus_mono issue st hopen h12 h t)

/-! ## Aggregator key lemmas -/

theorem statsStep_keysAgree {t : StatsTriple} (kv : String × List ℚ)
    (h : KeysAgree t) : KeysAgree (statsStep t kv) := by
  intro j
  unfold statsStep
  simp only [Dict.contains_set]
  rw [(h j).1, (h j).2]
  exact ⟨rfl, rfl⟩

theorem statsFold_keysAgree (samples : List (String × List ℚ)) :
    ∀ {t : StatsTriple}, KeysAgree t → KeysAgree (samples.foldl statsStep t) := by
  induction samples with
  | nil => intro t h; exact h
  | cons kv tl ih =>
      intro t h
      simp only [List.foldl_cons]
      exact ih (statsStep_keysAgree kv h)

theorem fillStep_keysAgree {t : StatsTriple} (s : String)
    (h : KeysAgree t) : KeysAgree (fillStep t s) := by
  unfold fillStep
  split
  · exact h
  · intro j
    simp only [Dict.contains_set]
    rw [(h j).1, (h j).2]
    exact ⟨rfl, rfl⟩

theorem fillFold_keysAgree (l : List String) :
    ∀ {t : StatsTriple}, KeysAgree t → KeysAgree (l.foldl fillStep t) := by
  induction l with
  | nil => intro t h; exact h
  | cons s tl ih =>
      intro t h
      simp only [List.foldl_cons]
      exact ih (fillStep_keysAgree s h)

theorem fillStep_contains_mono {t : StatsTriple} (s S : String)
    (h : Dict.contains t.1 S = true) :
    Dict.contains (fillStep t s).1 S = true := by
  unfold fillStep
  split
  · exact h
  · simp [Dict.contains_set, h]

theorem fillFold_contains_mono (S : String) (l : List String) :
    ∀ {t : StatsTriple}, Dict.contains t.1 S = true →
      Dict.contains (l.foldl fillStep t).1 S = true := by
  induction l with
  | nil => intro t h; exact h
  | cons s tl ih =>
      intro t h
      simp only [List.foldl_cons]
      exact ih (fillStep_contains_mono s S h)

theorem fillFold_contains (S : String) (l : List String) :
    ∀ t : StatsTriple, S ∈ l →
      Dict.contains (l.foldl fillStep t).1 S = true := by
  induction l with
  | nil => intro t h; cases h
  | cons a tl ih =>
      intro t h
      simp only [List.foldl_cons]
      rcases List.mem_cons.mp h with h | h
      · subst h
        refine fillFold_contains_mono S tl ?_
        unfold fillStep
        split
        · assumption
        · simp [Dict.contains_set]
      · exact ih _ h

theorem stats_contains (issues_with_metrics : List IssueWithMetrics)
    (statuses : List String) {S : String} (hS : S ∈ statuses) :
    Dict.contains
        (get_stats_time_in_statuses issues_with_metrics statuses).avg S = true ∧
      Dict.contains
        (get_stats_time_in_statuses issues_with_metrics statuses).med S = true ∧
      Dict.contains
        (get_stats_time_in_statuses issues_with_metrics statuses).ninety S = true := by
  unfold get_stats_time_in_statuses
  have hbase : KeysAgree (([], [], []) : StatsTriple) := fun _ => ⟨rfl, rfl⟩
  have hagree : KeysAgree
      (statuses.foldl fillStep
        ((collectSamples issues_with_metrics).foldl statsStep
          (([], [], []) : StatsTriple))) :=
    fillFold_keysAgree statuses (statsFold_keysAgree _ hbase)
  have havg : Dict.contains
      (statuses.foldl fillStep
        ((collectSamples issues_with_metrics).foldl statsStep
          (([], [], []) : StatsTriple))).1 S = true :=
    fillFold_contains S statuses _ hS
  refine ⟨havg, ?_, ?_⟩
  · rw [(hagree S).1]
    exact havg
  · rw [(hagree S).2]
    exact havg

/-! ## The claims -/

/-- C1: the spec expects 60s for a status entered at `created_at + 10s` and
left at `created_at + 70s` on an item closed at `created_at + 200s`, with
the closed-item finalisation a no-op after a trailing LEFT.  The code
instead adds `closed_at - created_at` to every status ever entered,
regardless of its last event, and returns 260s: the matched interval (60s)
plus the whole lifetime (200s). -/
theorem claim_C1_closed_after_left_overcounts (c now : Int) :
    Dict.find? (get_status_metrics ⟨c, some (c + 200), "closed"⟩ ["X"]
      [⟨c + 10, EventKind.statused, "X"⟩, ⟨c + 70, EventKind.unstatused, "X"⟩]
      now) "X" = some (some 260) := by
  have h₁ : skipEvent ⟨c, some (c + 200), "closed"⟩
      ⟨c + 10, EventKind.statused, "X"⟩ = false := by
    simp [skipEvent]; omega
  have h₂ : skipEvent ⟨c, some (c + 200), "closed"⟩
      ⟨c + 70, EventKind.unstatused, "X"⟩ = false := by
    simp [skipEvent]; omega
  simp [get_status_metrics, accumState, initState, finalizeMetrics,
    finalizeStatus, processEvent, initMetrics, h₁, h₂, Dict.find?, Dict.set,
    Dict.contains]

/-- C5: a closed item entered into `"X"` at `created_at + 10s` with no LEFT
event and closed at `created_at + 50s` accumulates exactly 40s for `"X"`:
the finalisation credits the trailing unmatched ENTERED up to closure. -/
theorem claim_C5_closed_trailing_entered (c now : Int) :
    Dict.find? (get_status_metrics ⟨c, some (c + 50), "closed"⟩ ["X"]
      [⟨c + 10, EventKind.statused, "X"⟩] now) "X" = some (some 40) := by
  have h₁ : skipEvent ⟨c, some (c + 50), "closed"⟩
      ⟨c + 10, EventKind.statused, "X"⟩ = false := by
    simp [skipEvent]; omega
  simp [get_status_metrics, accumState, initState, finalizeMetrics,
    finalizeStatus, processEvent, initMetrics, h₁, Dict.find?, Dict.set,
    Dict.contains]

/-- C6: an open item entered into `"X"` at `created_at + 10s` with no LEFT
event, evaluated at `now = created_at + 100s`, accumulates 90s; and when
the last processed event for `"X"` is a LEFT on an open item, no trailing
time is added: the result is the matched 60s whatever `now` is. -/
theorem claim_C6_open_item_durations (c now : Int) :
    Dict.find? (get_status_metrics ⟨c, none, "open"⟩ ["X"]
        [⟨c + 10, EventKind.statused, "X"⟩] (c + 100)) "X"
        = some (some 90) ∧
      Dict.find? (get_status_metrics ⟨c, none, "open"⟩ ["X"]
        [⟨c + 10, EventKind.statused, "X"⟩, ⟨c + 70, EventKind.unstatused, "X"⟩]
        now) "X" = some (some 60) := by
  constructor <;>
    simp [get_status_metrics, accumState, initState, finalizeMetrics,
      finalizeStatus, processEvent, skipEvent, initMetrics, Dict.find?,
      Dict.set, Dict.contains]

/-- C7: on an item with a close time, an event more than five minutes past
the close time is skipped before any accumulation: one loop iteration on it
returns the loop state unchanged, so every status's accumulator, last-event
kind and entered and left marks are exactly as they were. -/
theorem claim_C7_late_event_skipped (issue : Issue) (statuses : List String)
    (st : AccState) (e : StatusEvent) (closedAt : Int)
    (hclosed : issue.closed_at = some closedAt)
    (hlate : e.createdAt > closedAt + 5 * 60) :
    processEvent issue statuses st e = st := by
  have h : skipEvent issue e = true := by
    unfold skipEvent
    rw [hclosed]
    exact decide_eq_true hlate
  unfold processEvent
  simp [h]

/-- C7 witness: a concrete skipped event on a concrete state. -/
theorem claim_C7_late_event_skipped_witness :
    processEvent ⟨0, some 100, "closed"⟩ ["X"]
        ⟨[("X", none)], [], [], []⟩ ⟨1000, EventKind.statused, "X"⟩
      = ⟨[("X", none)], [], [], []⟩ :=
  claim_C7_late_event_skipped ⟨0, some 100, "closed"⟩ ["X"]
    ⟨[("X", none)], [], [], []⟩ ⟨1000, EventKind.statused, "X"⟩ 100 rfl (by decide)

/-- C10: a closed item whose only event for `"X"` is an ENTERED inside the
five-minute grace window after closure gets the negative duration
`closed_at - timestamp`: the accumulator subtracts `timestamp - created_at`
and the finalisation adds back only `closed_at - created_at`. -/
theorem claim_C10_negative_duration (c closedAt ts now : Int)
    (h₁ : closedAt < ts) (h₂ : ts ≤ closedAt + 5 * 60) :
    Dict.find? (get_status_metrics ⟨c, some closedAt, "closed"⟩ ["X"]
        [⟨ts, EventKind.statused, "X"⟩] now) "X"
        = some (some (closedAt - ts)) ∧ closedAt - ts < 0 := by
  have hskip : skipEvent ⟨c, some closedAt, "closed"⟩
      ⟨ts, EventKind.statused, "X"⟩ = false := by
    simp [skipEvent]; omega
  constructor
  · simp [get_status_metrics, accumState, initState, finalizeMetrics,
      finalizeStatus, processEvent, initMetrics, hskip, Dict.find?, Dict.set,
      Dict.contains]
  · omega

/-- C10 witness: close at 100, ENTERED at 150, duration -50. -/
theorem claim_C10_negative_duration_witness :
    Dict.find? (get_status_metrics ⟨0, some 100, "closed"⟩ ["X"]
        [⟨150, EventKind.statused, "X"⟩] 1000) "X"
        = some (some (100 - 150)) ∧ (100 : Int) - 150 < 0 :=
  claim_C10_negative_duration 0 100 150 1000 (by decide) (by decide)

/-- C3 counterexample: a lone LEFT (`"unstatused"`) event initialises the
status's accumulator too, so a status never entered need not stay absent:
an open item created at 0 that leaves `"X"` at 50 reports 50s, not `None`. -/
theorem claim_C3_left_only_counterexample :
    Dict.find? (get_status_metrics ⟨0, none, "open"⟩ ["X"]
        [⟨50, EventKind.unstatused, "X"⟩] 1000) "X" = some (some 50) ∧
      Dict.find? (get_status_metrics ⟨0, none, "open"⟩ ["X"]
        [⟨50, EventKind.unstatused, "X"⟩] 1000) "X" ≠ some none := by
  decide

/-- C3 amended: a tracked status with no processed event at all — every
event naming it, if any, is skipped — maps to `None`; a processed LEFT
event alone already initialises the accumulator and yields a value. -/
theorem claim_C3_no_processed_event_absent (issue : Issue)
    (statuses : List String) (events : List StatusEvent) (now : Int)
    (S : String) (hS : S ∈ statuses)
    (hnone : ∀ e ∈ events, e.statusName = S → skipEvent issue e = true) :
    Dict.find? (get_status_metrics issue statuses events now) S = some none := by
  unfold get_status_metrics
  split
  · exact find?_initMetrics hS
  · unfold finalizeMetrics
    have hcond : ∀ e ∈ events, skipEvent issue e = true ∨ e.statusName ≠ S := by
      intro e he
      by_cases hname : e.statusName = S
      · exact Or.inl (hnone e he hname)
      · exact Or.inr hname
    have hacc := accumFold_frame issue statuses S events (initState statuses) hcond
    have hstat : Dict.contains (accumState issue statuses events).statused S
        = false := by
      unfold accumState
      simp only [Dict.contains]
      rw [hacc.2]
      rfl
    rw [finalizeFold_frame issue now (accumState issue statuses events) S hstat
      statuses (accumState issue statuses events).status_metrics]
    unfold accumState
    rw [hacc.1]
    exact find?_initMetrics hS

/-- C3 witness for the amended claim: the only event naming `"X"` is past
the grace window, so it is skipped and `"X"` stays absent. -/
theorem claim_C3_no_processed_event_absent_witness :
    Dict.find? (get_status_metrics ⟨0, some 100, "closed"⟩ ["X"]
      [⟨600, EventKind.statused, "X"⟩] 50) "X" = some none :=
  claim_C3_no_processed_event_absent ⟨0, some 100, "closed"⟩ ["X"]
    [⟨600, EventKind.statused, "X"⟩] 50 "X" (by decide) (by decide)

/-- Full evaluation of the aggregation example: samples 10, 20, 30 for
`"X"`, no samples for `"Y"`. -/
theorem statsC2_eval :
    get_stats_time_in_statuses sampleIssuesC2 ["X", "Y"]
      = ⟨[("X", some 20), ("Y", none)], [("X", some 20), ("Y", none)],
         [("X", some 28), ("Y", none)]⟩ := by
  norm_num [get_stats_time_in_statuses, collectSamples, appendSample,
    sampleIssuesC2, statsStep, fillStep, npAverage, npMedian, npPercentile,
    npRound, sortQ, insertSorted, Dict.find?, Dict.set, Dict.contains]
  decide

/-- C2 counterexample: `numpy.percentile([10, 20, 30], 90)` interpolates at
virtual rank `0.9 * (3 - 1) = 1.8`, giving `20 + 0.8 * 10 = 28`, not the
26 the spec states. -/
theorem claim_C2_p90_counterexample :
    Dict.find? (get_stats_time_in_statuses sampleIssuesC2 ["X", "Y"]).ninety "X"
        = some (some 28) ∧
      Dict.find? (get_stats_time_in_statuses sampleIssuesC2 ["X", "Y"]).ninety "X"
        ≠ some (some 26) := by
  rw [statsC2_eval]
  decide

/-- C2 amended: for samples `[10, 20, 30]` in status `"X"`, avg = 20s,
median = 20s and p90 = 28s (linear interpolation between closest ranks),
rounded to whole seconds; a status with zero samples is a key of all three
mappings with absent (`None`) value. -/
theorem claim_C2_aggregator_stats :
    Dict.find? (get_stats_time_in_statuses sampleIssuesC2 ["X", "Y"]).avg "X"
        = some (some 20) ∧
      Dict.find? (get_stats_time_in_statuses sampleIssuesC2 ["X", "Y"]).med "X"
        = some (some 20) ∧
      Dict.find? (get_stats_time_in_statuses sampleIssuesC2 ["X", "Y"]).ninety "X"
        = some (some 28) ∧
      Dict.find? (get_stats_time_in_statuses sampleIssuesC2 ["X", "Y"]).avg "Y"
        = some none ∧
      Dict.find? (get_stats_time_in_statuses sampleIssuesC2 ["X", "Y"]).med "Y"
        = some none ∧
      Dict.find? (get_stats_time_in_statuses sampleIssuesC2 ["X", "Y"]).ninety "Y"
        = some none := by
  rw [statsC2_eval]
  decide

/-- C4 counterexample: a document whose script tag holds malformed JSON
makes `json.loads` raise, so `get_status_events` does not return an empty
sequence there. -/
theorem claim_C4_malformed_counterexample :
    get_status_events ⟨some ScriptPayload.malformed⟩ ["X"]
        = Except.error "json.decoder.JSONDecodeError" ∧
      exceptIsOk (get_status_events ⟨some ScriptPayload.malformed⟩ ["X"])
        = false :=
  ⟨rfl, rfl⟩

/-- C4 amended: `get_status_events` returns an empty sequence without
raising only when the matching script tag is missing or its JSON parses to
a falsy value; malformed JSON and a missing nested payload structure raise
(`json.loads` and the chained indexing are unguarded). -/
theorem claim_C4_extractor_error_handling (statuses : List String) :
    get_status_events ⟨none⟩ statuses = Except.ok [] ∧
      get_status_events ⟨some ScriptPayload.falsy⟩ statuses = Except.ok [] ∧
      exceptIsOk (get_status_events ⟨some ScriptPayload.malformed⟩ statuses)
        = false ∧
      exceptIsOk (get_status_events ⟨some ScriptPayload.missingPath⟩ statuses)
        = false :=
  ⟨rfl, rfl, rfl, rfl⟩

/-- C8: every configured status is a key of the duration map returned by
`get_status_metrics` and of all three statistics mappings returned by
`get_stats_time_in_statuses`, whatever the inputs. -/
theorem claim_C8_keys_invariant (issue : Issue) (statuses : List String)
    (events : List StatusEvent) (now : Int)
    (issues_with_metrics : List IssueWithMetrics) (S : String)
    (hS : S ∈ statuses) :
    Dict.contains (get_status_metrics issue statuses events now) S = true ∧
      Dict.contains
        (get_stats_time_in_statuses issues_with_metrics statuses).avg S = true ∧
      Dict.contains
        (get_stats_time_in_statuses issues_with_metrics statuses).med S = true ∧
      Dict.contains
        (get_stats_time_in_statuses issues_with_metrics statuses).ninety S
        = true :=
  ⟨get_status_metrics_contains issue statuses events now hS,
    (stats_contains issues_with_metrics statuses hS).1,
    (stats_contains issues_with_metrics statuses hS).2.1,
    (stats_contains issues_with_metrics statuses hS).2.2⟩

/-- C8 witness: concrete empty inputs with the configured status `"X"`. -/
theorem claim_C8_keys_invariant_witness :
    Dict.contains (get_status_metrics ⟨0, none, "open"⟩ ["X"] [] 0) "X" = true ∧
      Dict.contains (get_stats_time_in_statuses [] ["X"]).avg "X" = true ∧
      Dict.contains (get_stats_time_in_statuses [] ["X"]).med "X" = true ∧
      Dict.contains (get_stats_time_in_statuses [] ["X"]).ninety "X" = true :=
  claim_C8_keys_invariant ⟨0, none, "open"⟩ ["X"] [] 0 [] "X" (by decide)

/-- C9: rerunning the accumulator on an unchanged closed item at two
evaluation instants yields identical results; on an open item, for a
status whose last processed event kind is ENTERED (`"statused"`), the
duration at a later instant is at least the earlier one. -/
theorem claim_C9_rerun_monotone (issue : Issue) (statuses : List String)
    (events : List StatusEvent) (S : String) (now₁ now₂ : Int) :
    (issue.state = "closed" →
      get_status_metrics issue statuses events now₁
        = get_status_metrics issue statuses events now₂) ∧
    (¬issue.state = "closed" → now₁ ≤ now₂ →
      Dict.find? (accumState issue statuses events).status_last_event_type S
          = some "statused" →
      ∀ v₁ v₂,
        Dict.find? (get_status_metrics issue statuses events now₁) S
            = some (some v₁) →
        Dict.find? (get_status_metrics issue statuses events now₂) S
            = some (some v₂) →
        v₁ ≤ v₂) := by
  constructor
  · intro hclosed
    unfold get_status_metrics
    split
    · rfl
    · unfold finalizeMetrics
      exact finalizeFold_closed issue _ hclosed now₁ now₂ statuses _
  · intro hopen h12 _ v₁ v₂ h₁ h₂
    unfold get_status_metrics at h₁ h₂
    by_cases hemp : events.isEmpty = true
    · rw [if_pos hemp] at h₁
      unfold initMetrics at h₁
      rw [find?_initFold] at h₁
      split at h₁
      · simp at h₁
      · simp [Dict.find?] at h₁
    · rw [if_neg hemp] at h₁ h₂
      unfold finalizeMetrics at h₁ h₂
      have hle := finalizeFold_mono issue (accumState issue statuses events)
        hopen h12 statuses
        (MetricsLe.refl (accumState issue statuses events).status_metrics)
      rcases hle S with heq | ⟨a, b, ha, hb, hab⟩
      · rw [h₁, h₂] at heq
        simp at heq
        omega
      · rw [h₁] at ha
        rw [h₂] at hb
        simp at ha hb
        omega

/-- C9 witness: a closed item evaluated at 500 and 900 gives the same map;
an open item with an active status gives 90s at `now = 100` and 490s at
`now = 500`. -/
theorem claim_C9_rerun_monotone_witness :
    get_status_metrics ⟨0, some 100, "closed"⟩ ["X"]
        [⟨10, EventKind.statused, "X"⟩] 500
      = get_status_metrics ⟨0, some 100, "closed"⟩ ["X"]
        [⟨10, EventKind.statused, "X"⟩] 900 ∧
    (90 : Int) ≤ 490 := by
  constructor
  · exact (claim_C9_rerun_monotone ⟨0, some 100, "closed"⟩ ["X"]
      [⟨10, EventKind.statused, "X"⟩] "X" 500 900).1 rfl
  · exact (claim_C9_rerun_monotone ⟨0, none, "open"⟩ ["X"]
      [⟨10, EventKind.statused, "X"⟩] "X" 100 500).2 (by decide) (by decide)
      (by decide) 90 490 (by decide) (by decide)

end IssueMetrics
